import Mathlib

/-
Verification of the chengyu-playground idiom-chain engine.

The development shallowly embeds the Python sources:
  validator.py  : lexicon construction, chain matching, move validation
  reward.py     : continuation counting, response parsing, step reward
  battle.py     : the match state machine (turn loop and reversal check)
  benchmark.py  : role-swapped tournament entries

The static corpus files (chengyu.json, idiom.json) are data, not code, so the
lexicon is a parameter: a list of known phrases plus a list of idiom entries
carrying pinyin data, exactly the shape validator.py and reward.py build their
lookup structures from.  Python sets become Finset, Python floats in the
reward become exact rationals, and the external JSON decoder (json.loads) and
the external LLM move source are abstract parameters.
-/

/-- One entry of idiom.json as validator.py and reward.py read it:
the phrase, its toneless first/last syllables, and the full toned pinyin. -/
structure IdiomEntry where
  word : String
  first : String
  last : String
  pinyin : String
deriving DecidableEq

/-- The static corpus: chengyu.json (the existence list) and idiom.json
(the pinyin-bearing entries). -/
structure Lexicon where
  chengyuList : List String
  idiomList : List IdiomEntry
deriving DecidableEq

/-- Python str.split() with no argument: split on whitespace, dropping
empty pieces. -/
def pySplit (s : String) : List String :=
  ((s.data.splitOnP Char.isWhitespace).map String.mk).filter (fun t => t ≠ "")

/-- Python str.strip() with no argument: drop leading and trailing
whitespace. -/
def pyStrip (s : String) : String :=
  String.mk (((s.data.dropWhile Char.isWhitespace).reverse.dropWhile
    Char.isWhitespace).reverse)

/-- `_chengyu_set` of validator.py: the set of phrases in chengyu.json. -/
def chengyu_set (lx : Lexicon) : Finset String :=
  lx.chengyuList.toFinset

/-- `_pinyin_map` of validator.py / reward.py: word → (first, last) toneless
syllables.  The Python dict is built by a loop in which a later entry for the
same word overwrites an earlier one, hence the search over the reversed list. -/
def pinyin_map (lx : Lexicon) (w : String) : Option (String × String) :=
  (lx.idiomList.reverse.find? (fun e => e.word = w)).map (fun e => (e.first, e.last))

/-- `_pinyin_tone_map` of validator.py / reward.py: word → (first, last) toned
syllables, present only for entries whose pinyin field splits into at least
one token. -/
def pinyin_tone_map (lx : Lexicon) (w : String) : Option (String × String) :=
  ((lx.idiomList.filter (fun e => pySplit e.pinyin ≠ [])).reverse.find?
      (fun e => e.word = w)).map
    (fun e => ((pySplit e.pinyin).headD "", (pySplit e.pinyin).getLastD ""))

/-- `_pinyin_map.get(w, ("", ""))`: lookup with the empty-pair default. -/
def pinyin_get (lx : Lexicon) (w : String) : String × String :=
  (pinyin_map lx w).getD ("", "")

/-- `_pinyin_tone_map.get(w, ("", ""))`: lookup with the empty-pair default. -/
def pinyin_tone_get (lx : Lexicon) (w : String) : String × String :=
  (pinyin_tone_map lx w).getD ("", "")

/-- `validate_existence` of validator.py. -/
def validate_existence (lx : Lexicon) (word : String) : Bool :=
  word ∈ chengyu_set lx

/-- `validate_chain` of validator.py: the mode-dispatched chain check,
returning (passes, error message). -/
def validate_chain (lx : Lexicon) (word previous_word : String) (mode : String) :
    Bool × String :=
  if mode = "same_char" then
    if word.front ≠ previous_word.back then (false, "首字不匹配")
    else (true, "")
  else if mode = "homophone" then
    let prev_last := (pinyin_get lx previous_word).2
    let curr_first := (pinyin_get lx word).1
    if prev_last = "" ∨ curr_first = "" then
      if word.front ≠ previous_word.back then (false, "首字读音不匹配")
      else (true, "")
    else if prev_last ≠ curr_first then (false, "首字读音不匹配")
    else (true, "")
  else if mode = "same_char_sound" then
    if word.front ≠ previous_word.back then (false, "首字不匹配")
    else
      let prev_last_tone := (pinyin_tone_get lx previous_word).2
      let curr_first_tone := (pinyin_tone_get lx word).1
      if prev_last_tone = "" ∨ curr_first_tone = "" then (true, "")
      else if prev_last_tone ≠ curr_first_tone then
        (false, "首字读音不匹配（多音字声调不同）")
      else (true, "")
  else
    if word.front ≠ previous_word.back then (false, "首字不匹配")
    else (true, "")

/-- `validate_uniqueness` of validator.py: the word has not been used. -/
def validate_uniqueness (word : String) (used_words : Finset String) : Bool :=
  ¬ word ∈ used_words

/-- `validate_idiom` of validator.py: existence, then chain, then
uniqueness, reporting the first failure. -/
def validate_idiom (lx : Lexicon) (word previous_word : String)
    (used_words : Finset String) (mode : String) : Bool × String :=
  if validate_existence lx word = false then (false, "成语不在词库中")
  else
    let vc := validate_chain lx word previous_word mode
    if vc.1 = false then (false, vc.2)
    else if validate_uniqueness word used_words = false then (false, "成语已使用过")
    else (true, "")

/-- The character U+007B, written by code point to keep brace characters out
of the source text. -/
def lbrace : Char := Char.ofNat 123

/-- The character U+007D. -/
def rbrace : Char := Char.ofNat 125

/-- A JSON value as Python's json.loads produces it (numbers kept integral:
no claim depends on fractional literals). -/
inductive PyJson where
  | obj (fields : List (String × PyJson))
  | arr (elems : List PyJson)
  | str (s : String)
  | num (n : Int)
  | bool (b : Bool)
  | null

/-- Python truthiness of a JSON-decoded value, as `bool(...)` computes it. -/
def pyTruthy : PyJson → Bool
  | .bool b => b
  | .num n => n ≠ 0
  | .str s => s ≠ ""
  | .arr xs => !xs.isEmpty
  | .obj fs => !fs.isEmpty
  | .null => false

/-- Python `str(...)` of a JSON-decoded value.  Scalars render as Python
renders them; for containers only nonemptiness of the rendering is ever
relevant (reward.py feeds the text to truthiness tests and lexicon lookups),
so they render as their bare delimiter shells. -/
def pyStr : PyJson → String
  | .str s => s
  | .num n => toString n
  | .bool true => "True"
  | .bool false => "False"
  | .null => "None"
  | .obj _ => String.mk [lbrace, rbrace]
  | .arr _ => "[]"

/-- Python `dict.get(k, default)` over the pair list of a decoded JSON
object; a later duplicate key overwrites an earlier one, as in dict
construction. -/
def dict_get (d : List (String × PyJson)) (k : String) (v : PyJson) : PyJson :=
  match d.reverse.find? (fun p => p.1 = k) with
  | some p => p.2
  | none => v

/-- One attempt of the regex at a position just after an opening brace:
the greedy run of non-brace characters must be closed by a closing brace. -/
def brace_body (cs : List Char) : Option (List Char) :=
  let body := cs.takeWhile (fun c => c ≠ lbrace ∧ c ≠ rbrace)
  match cs.drop body.length with
  | c :: _ => if c = rbrace then some body else none
  | [] => none

/-- Leftmost match of the brace-block regex used by parse_llm_response:
scan left to right; at each opening brace try to close the block, otherwise
keep scanning. -/
def brace_scan : List Char → Option String
  | [] => none
  | c :: rest =>
    if c = lbrace then
      match brace_body rest with
      | some body => some (String.mk (lbrace :: (body ++ [rbrace])))
      | none => brace_scan rest
    else brace_scan rest

/-- `re.search` of the first brace-delimited block, match text included. -/
def first_brace_block (s : String) : Option String :=
  brace_scan s.data

/-- The normalized dict parse_llm_response returns: word, next_word and
success, pulled from the decoded object with defaults. -/
structure ParsedResponse where
  word : String
  next_word : String
  success : Bool
deriving DecidableEq

/-- `_try_parse` inside parse_llm_response: decode and keep the value only
when it is an object. -/
def try_parse (loads : String → Option PyJson) (s : String) :
    Option (List (String × PyJson)) :=
  match loads s with
  | some (.obj fs) => some fs
  | _ => none

/-- `parse_llm_response` of reward.py.  `loads` stands for the external JSON
decoder: `none` models a decode exception.  A decoded value that is not an
object is rejected exactly as a decode failure is. -/
def parse_llm_response (loads : String → Option PyJson) (text : String) :
    Bool × ParsedResponse :=
  let t := pyStrip text
  let data : Option (List (String × PyJson)) :=
    match try_parse loads t with
    | some d => some d
    | none =>
      match first_brace_block t with
      | some sub => try_parse loads sub
      | none => none
  match data with
  | none => (false, ⟨"", "", false⟩)
  | some d =>
    (true, ⟨pyStr (dict_get d "word" (.str "")),
            pyStr (dict_get d "next_word" (.str "")),
            pyTruthy (dict_get d "success" (.bool false))⟩)

/-- `_by_first_char` of reward.py: phrases grouped by leading character. -/
def by_first_char (lx : Lexicon) (c : Char) : Finset String :=
  ((lx.idiomList.filter (fun e => e.word.front = c)).map (fun e => e.word)).toFinset

/-- `_by_first_pinyin` of reward.py: phrases grouped by toneless leading
syllable. -/
def by_first_pinyin (lx : Lexicon) (p : String) : Finset String :=
  ((lx.idiomList.filter (fun e => e.first = p)).map (fun e => e.word)).toFinset

/-- `_by_first_char_tone` of reward.py: phrases grouped by (leading
character, toned leading syllable), entries with no pinyin tokens omitted. -/
def by_first_char_tone (lx : Lexicon) (c : Char) (t : String) : Finset String :=
  ((lx.idiomList.filter
      (fun e => pySplit e.pinyin ≠ [] ∧ e.word.front = c ∧
        (pySplit e.pinyin).headD "" = t)).map (fun e => e.word)).toFinset

/-- `count_continuations` of reward.py: how many lexicon phrases may follow
`word` under `mode`, the used set excluded. -/
def count_continuations (lx : Lexicon) (word : String) (used_words : Finset String)
    (mode : String) : Nat :=
  let last_char := word.back
  let candidates : Finset String :=
    if mode = "same_char" then by_first_char lx last_char
    else if mode = "homophone" then
      let last_pinyin := (pinyin_get lx word).2
      if last_pinyin ≠ "" then by_first_pinyin lx last_pinyin else ∅
    else if mode = "same_char_sound" then
      let last_tone := (pinyin_tone_get lx word).2
      if last_tone ≠ "" then by_first_char_tone lx last_char last_tone else ∅
    else by_first_char lx last_char
  (candidates \ used_words).card

/-- The info dict compute_step_reward fills: each reward component and the
bookkeeping fields, floats carried as exact rationals. -/
structure RewardInfo where
  round_num : Nat
  round_penalty : ℚ
  compliance : ℚ
  strategy : ℚ
  foresight : ℚ
  total : ℚ
  valid : Bool
  reason : String
  word : String
  continuation_count : Int
deriving DecidableEq

/-- `compute_step_reward` of reward.py: the single-step reward and its
breakdown, following the source's early-return priority chain. -/
def compute_step_reward (lx : Lexicon) (loads : String → Option PyJson)
    (response_text previous_word : String) (used_words : Finset String)
    (round_num : Nat) (mode : String) (round_penalty fail_penalty : ℚ) :
    ℚ × RewardInfo :=
  let info0 : RewardInfo :=
    { round_num := round_num, round_penalty := round_penalty, compliance := 0,
      strategy := 0, foresight := 0, total := 0, valid := false, reason := "",
      word := "", continuation_count := -1 }
  let total := round_penalty
  let pr := parse_llm_response loads response_text
  if pr.1 = false then
    let i := { info0 with
      compliance := -1, reason := "JSON解析失败", total := total + (-1) }
    (i.total, i)
  else
    let parsed := pr.2
    let info1 := { info0 with word := parsed.word }
    if parsed.success = false then
      let i := { info1 with
        compliance := fail_penalty, reason := "认输", total := total + fail_penalty }
      (i.total, i)
    else
      let word := parsed.word
      if validate_existence lx word = false then
        let i := { info1 with
          compliance := -0.8, reason := "成语不在词库中", total := total + (-0.8) }
        (i.total, i)
      else
        let chain := validate_chain lx word previous_word mode
        if chain.1 = false then
          let i := { info1 with
            compliance := -0.8, reason := chain.2, total := total + (-0.8) }
          (i.total, i)
        else if validate_uniqueness word used_words = false then
          let i := { info1 with
            compliance := -0.6, reason := "成语已使用过", total := total + (-0.6) }
          (i.total, i)
        else
          let total1 := total + 0.3
          let updated_used := used_words ∪ {word}
          let cont := count_continuations lx word updated_used mode
          let strategy : ℚ :=
            if cont = 0 then 0.5
            else if cont ≤ 5 then 0.3
            else if cont ≤ 20 then 0.1
            else 0
          let total2 := total1 + strategy
          let next_word := parsed.next_word
          let foresight : ℚ :=
            if next_word ≠ "" ∧ (validate_idiom lx next_word word updated_used mode).1 = true
            then 0.3 else 0
          let i := { info1 with
            valid := true, compliance := 0.3, strategy := strategy,
            foresight := foresight, continuation_count := (cont : Int),
            total := total2 + foresight }
          (i.total, i)

/-- `MAX_ROUNDS` of battle.py. -/
def MAX_ROUNDS : Nat := 30

/-- `ModelConfig` of models.py. -/
structure ModelConfig where
  base_url : String
  api_key : String
  model : String
deriving DecidableEq

/-- The outcome of one call to the external move source: `err` models an
exception raised by call_llm, `claim` a returned LLMResponse
(word, next_word, success). -/
inductive MoveOutcome where
  | err
  | claim (word next_word : String) (success : Bool)
deriving DecidableEq

/-- The external move source: call_llm as a function of
(config, history_words, current player, start word).  Within one match no
two calls share an argument tuple (the history grows every round), so a
deterministic function loses no generality. -/
def LLMCall : Type :=
  ModelConfig → List String → String → String → MoveOutcome

/-- `_player_label` of battle.py. -/
def player_label (player : String) : String :=
  if player = "A" then "模型A" else "模型B"

/-- `_opponent` of battle.py. -/
def opponent (player : String) : String :=
  if player = "A" then "B" else "A"

/-- `_check_next_word` of battle.py: when a player fails, the previous
accepted player's declared next_word is checked; a legal witness keeps the
naive ruling, an illegal one reverses it, and with no witness to check the
naive ruling stands. -/
def check_next_word (lx : Lexicon) (last_next_word last_valid_player failed_player : String)
    (history_words : List String) (used_words : Finset String)
    (default_reason : String) : String × String :=
  if last_next_word = "" ∨ last_valid_player = "" then
    (opponent failed_player, default_reason)
  else
    let last_word := history_words.getLastD ""
    let next_valid := (validate_idiom lx last_next_word last_word used_words "same_char").1
    if next_valid = true then
      (last_valid_player, default_reason)
    else
      (failed_player, player_label last_valid_player ++ "无法证明可以继续接龙")

/-- The mutable loop state of execute_battle just before a round runs. -/
structure BattleState where
  history_words : List String
  used_words : Finset String
  current_player : String
  last_next_word : String
  last_valid_player : String
deriving DecidableEq

/-- The state at the top of the loop: empty history, the start word used,
player A to move, no witness recorded. -/
def initState (start_word : String) : BattleState :=
  { history_words := []
    used_words := {start_word}
    current_player := "A"
    last_next_word := ""
    last_valid_player := "" }

/-- `configs[player]` of execute_battle. -/
def battle_config (model_a model_b : ModelConfig) (player : String) : ModelConfig :=
  if player = "A" then model_a else model_b

/-- What one iteration of the execute_battle loop does: halt with a winner
and reason, or continue with the updated state. -/
inductive StepResult where
  | halt (winner reason : String)
  | cont (st : BattleState)
deriving DecidableEq

/-- One iteration of the execute_battle loop body: the move-source call
(an exception, a resignation, or a claimed word that is validated), each
failure routed through check_next_word with its original failure reason,
and a valid word extending the state. -/
def battle_step (lx : Lexicon) (src : LLMCall) (model_a model_b : ModelConfig)
    (start_word : String) (st : BattleState) : StepResult :=
  let label := player_label st.current_player
  match src (battle_config model_a model_b st.current_player) st.history_words
      st.current_player start_word with
  | .err =>
    let reason := label ++ "调用失败"
    let wr := check_next_word lx st.last_next_word st.last_valid_player
      st.current_player st.history_words st.used_words reason
    .halt wr.1 wr.2
  | .claim word next_word success =>
    if success = false then
      let reason := label ++ "认输"
      let wr := check_next_word lx st.last_next_word st.last_valid_player
        st.current_player st.history_words st.used_words reason
      .halt wr.1 wr.2
    else
      let previous_word := st.history_words.getLastD start_word
      let v := validate_idiom lx word previous_word st.used_words "same_char"
      if v.1 = false then
        let reason :=
          if v.2 = "成语不在词库中" then label ++ "成语不在词库中"
          else if v.2 = "首字不匹配" then label ++ "首字不匹配"
          else if v.2 = "成语已使用过" then label ++ "成语重复使用"
          else ""
        let wr := check_next_word lx st.last_next_word st.last_valid_player
          st.current_player st.history_words st.used_words reason
        .halt wr.1 wr.2
      else
        .cont { history_words := st.history_words ++ [word]
                used_words := insert word st.used_words
                current_player := opponent st.current_player
                last_next_word := next_word
                last_valid_player := st.current_player }

/-- The result execute_battle returns (the persisted-record id, supplied by
the external database collaborator, is omitted). -/
structure BattleResult where
  winner : String
  reason : String
  rounds : Nat
  history : List String
deriving DecidableEq

/-- The for-loop of execute_battle: `fuel` rounds remain, `round_num` is the
next round number.  Exhausting the fuel is the loop's else-branch: a draw at
the round limit, reporting the last executed round number. -/
def battle_run (lx : Lexicon) (src : LLMCall) (model_a model_b : ModelConfig)
    (start_word : String) : Nat → Nat → BattleState → BattleResult
  | 0, round_num, st =>
    { winner := "draw", reason := "达到最大回合数", rounds := round_num - 1,
      history := st.history_words }
  | fuel + 1, round_num, st =>
    match battle_step lx src model_a model_b start_word st with
    | .halt w r =>
      { winner := w, reason := r, rounds := round_num, history := st.history_words }
    | .cont st2 => battle_run lx src model_a model_b start_word fuel (round_num + 1) st2

/-- `execute_battle` of battle.py: run at most MAX_ROUNDS rounds from the
initial state and prepend the start word to the reported history. -/
def execute_battle (lx : Lexicon) (src : LLMCall) (model_a model_b : ModelConfig)
    (start_word : String) : BattleResult :=
  let r := battle_run lx src model_a model_b start_word MAX_ROUNDS 1 (initState start_word)
  { r with history := start_word :: r.history }

/-- Every loop state a run passes through, in order: the state entering each
executed round (and, when the fuel runs out, the state at the loop's end). -/
def battle_trace (lx : Lexicon) (src : LLMCall) (model_a model_b : ModelConfig)
    (start_word : String) : Nat → BattleState → List BattleState
  | 0, st => [st]
  | fuel + 1, st =>
    st :: (match battle_step lx src model_a model_b start_word st with
      | .halt _ _ => []
      | .cont st2 => battle_trace lx src model_a model_b start_word fuel st2)

/-- The states of the full execute_battle run from the initial state. -/
def execute_battle_trace (lx : Lexicon) (src : LLMCall) (model_a model_b : ModelConfig)
    (start_word : String) : List BattleState :=
  battle_trace lx src model_a model_b start_word MAX_ROUNDS (initState start_word)

/-- `BenchmarkBattleResult` of models.py (the persisted-record id omitted). -/
structure BenchmarkBattleResult where
  start_word : String
  first_player : String
  winner : String
  reason : String
  rounds : Nat
deriving DecidableEq

/-- `_run_single_benchmark_battle` of benchmark.py: with first_player "A"
the match runs as given; otherwise the model configurations are swapped and
the raw winner label is inverted back to the canonical frame. -/
def run_single_benchmark_battle (lx : Lexicon) (src : LLMCall)
    (model_a model_b : ModelConfig) (start_word first_player : String) :
    BenchmarkBattleResult :=
  if first_player = "A" then
    let result := execute_battle lx src model_a model_b start_word
    { start_word := start_word, first_player := first_player,
      winner := result.winner, reason := result.reason, rounds := result.rounds }
  else
    let result := execute_battle lx src model_b model_a start_word
    let winner :=
      if result.winner = "A" then "B"
      else if result.winner = "B" then "A"
      else "draw"
    { start_word := start_word, first_player := first_player,
      winner := winner, reason := result.reason, rounds := result.rounds }

/-- A chain of two-character test words: word i runs from character 97+i to
character 98+i, so consecutive words chain under same_char mode. -/
def chainWord (i : Nat) : String :=
  String.mk [Char.ofNat (97 + i), Char.ofNat (98 + i)]

/-- A concrete corpus of 30 chaining test words with no pinyin entries. -/
def lxDraw : Lexicon :=
  { chengyuList := (List.range 30).map chainWord, idiomList := [] }

/-- A move source that always plays the next word of the chain. -/
def drawSrc : LLMCall :=
  fun _ hist _ _ => .claim (chainWord hist.length) "" true

/-- A concrete model configuration for instantiations. -/
def cfgA : ModelConfig := { base_url := "u", api_key := "k", model := "ma" }

/-- A second concrete model configuration. -/
def cfgB : ModelConfig := { base_url := "u", api_key := "k", model := "mb" }

/-- A JSON decoder that decodes every text as the empty list: a value whose
top level is not an object. -/
def arrLoads : String → Option PyJson := fun _ => some (.arr [])

theorem validate_chain_true_iff (lx : Lexicon) (w p m : String) :
    (validate_chain lx w p m).1 = true ↔ (validate_chain lx w p m).2 = "" := by
  simp only [validate_chain]
  split_ifs <;> simp

theorem validate_chain_msg_cases (lx : Lexicon) (w p m : String) :
    (validate_chain lx w p m).2 = "" ∨ (validate_chain lx w p m).2 = "首字不匹配" ∨
      (validate_chain lx w p m).2 = "首字读音不匹配" ∨
      (validate_chain lx w p m).2 = "首字读音不匹配（多音字声调不同）" := by
  simp only [validate_chain]
  split_ifs <;> simp

theorem validate_idiom_true_not_used (lx : Lexicon) (w p m : String)
    (u : Finset String) (h : (validate_idiom lx w p u m).1 = true) : w ∉ u := by
  intro hu
  simp only [validate_idiom] at h
  split_ifs at h
  all_goals simp_all [validate_uniqueness]

/-- C7: growing the used set never increases the continuation count. -/
theorem count_continuations_antitone (lx : Lexicon) (p mode : String)
    (U V : Finset String) (h : U ⊆ V) :
    count_continuations lx p V mode ≤ count_continuations lx p U mode := by
  unfold count_continuations
  exact Finset.card_le_card (Finset.sdiff_subset_sdiff (Finset.Subset.refl _) h)

theorem count_continuations_antitone_witness :
    count_continuations lxDraw "aa" {"ab", "bc"} "same_char" ≤
      count_continuations lxDraw "aa" {"ab"} "same_char" :=
  count_continuations_antitone lxDraw "aa" "same_char" {"ab"} {"ab", "bc"} (by decide)

theorem validate_existence_iff (lx : Lexicon) (w : String) :
    validate_existence lx w = true ↔ w ∈ chengyu_set lx := by
  simp [validate_existence]

/-- C9: in homophone mode an unknown trailing toneless syllable makes
count_continuations return 0, and likewise in same_char_sound mode for an
unknown trailing toned syllable — there is no character-mode fallback —
while validate_chain in homophone mode does fall back to comparing the
boundary characters when a syllable is unknown. -/
theorem count_continuations_unknown_pinyin :
    ∀ (lx : Lexicon) (word prev : String) (used : Finset String),
    ((pinyin_get lx word).2 = "" →
      count_continuations lx word used "homophone" = 0) ∧
    ((pinyin_tone_get lx word).2 = "" →
      count_continuations lx word used "same_char_sound" = 0) ∧
    ((pinyin_get lx prev).2 = "" ∨ (pinyin_get lx word).1 = "" →
      validate_chain lx word prev "homophone" =
        if word.front ≠ prev.back then (false, "首字读音不匹配") else (true, "")) := by
  intro lx word prev used
  refine ⟨?_, ?_, ?_⟩
  · intro h
    simp [count_continuations, h]
  · intro h
    simp [count_continuations, h]
  · intro h
    simp only [validate_chain]
    split_ifs with h1 h2 h3 <;> simp_all

theorem count_continuations_unknown_pinyin_witness :
    count_continuations lxDraw "aa" {"ab"} "homophone" = 0 ∧
      count_continuations lxDraw "aa" {"ab"} "same_char_sound" = 0 :=
  ⟨(count_continuations_unknown_pinyin lxDraw "aa" "aa" {"ab"}).1 (by decide),
   (count_continuations_unknown_pinyin lxDraw "aa" "aa" {"ab"}).2.1 (by decide)⟩

/-- C4: validate_idiom reports the first failure in the order existence,
chain, uniqueness: it returns the not-in-lexicon pair exactly when the word
is outside the corpus; given existence, it fails carrying the chain
checker's message exactly when the chain check fails; given both, it
returns the already-used pair exactly when the word is in the used set;
otherwise it succeeds with an empty reason. -/
theorem validate_idiom_priority :
    ∀ (lx : Lexicon) (w p : String) (used : Finset String) (mode : String),
    (validate_idiom lx w p used mode = (false, "成语不在词库中") ↔ w ∉ chengyu_set lx) ∧
    (w ∈ chengyu_set lx →
      ((validate_idiom lx w p used mode).1 = false ∧
        (validate_idiom lx w p used mode).2 = (validate_chain lx w p mode).2 ↔
        (validate_chain lx w p mode).1 = false)) ∧
    (w ∈ chengyu_set lx → (validate_chain lx w p mode).1 = true →
      (validate_idiom lx w p used mode = (false, "成语已使用过") ↔ w ∈ used)) ∧
    (w ∈ chengyu_set lx → (validate_chain lx w p mode).1 = true → w ∉ used →
      validate_idiom lx w p used mode = (true, "")) := by
  intro lx w p used mode
  by_cases hw : w ∈ chengyu_set lx
  · have hex : validate_existence lx w = true := (validate_existence_iff lx w).2 hw
    by_cases hc : (validate_chain lx w p mode).1 = true
    · have hmsg : (validate_chain lx w p mode).2 = "" :=
        (validate_chain_true_iff lx w p mode).1 hc
      by_cases hu : w ∈ used
      · have hr : validate_idiom lx w p used mode = (false, "成语已使用过") := by
          simp [validate_idiom, hex, hc, validate_uniqueness, hu]
        refine ⟨?_, ?_, ?_, ?_⟩ <;> simp [hr, hw, hc, hu, hmsg]
      · have hr : validate_idiom lx w p used mode = (true, "") := by
          simp [validate_idiom, hex, hc, validate_uniqueness, hu]
        refine ⟨?_, ?_, ?_, ?_⟩ <;> simp [hr, hw, hc, hu]
    · have hcf : (validate_chain lx w p mode).1 = false := by
        simpa [Bool.not_eq_true] using hc
      have hr : validate_idiom lx w p used mode =
          (false, (validate_chain lx w p mode).2) := by
        simp [validate_idiom, hex, hcf]
      have hne : (validate_chain lx w p mode).2 ≠ "成语不在词库中" := by
        rcases validate_chain_msg_cases lx w p mode with h | h | h | h <;> simp [h]
      refine ⟨?_, ?_, ?_, ?_⟩ <;> simp [hr, hw, hcf, hne]
  · have hex : validate_existence lx w = false := by
      simp [validate_existence, hw]
    have hr : validate_idiom lx w p used mode = (false, "成语不在词库中") := by
      simp [validate_idiom, hex]
    refine ⟨?_, ?_, ?_, ?_⟩ <;> simp [hr, hw]

theorem append_ne_empty_right (s t : String) (ht : t ≠ "") : s ++ t ≠ "" := by
  intro h
  have h2 := congrArg String.length h
  simp only [String.length_append] at h2
  have h0 : ("" : String).length = 0 := rfl
  have h3 : t.length = 0 := by omega
  apply ht
  cases t with
  | mk data =>
    have hl : data.length = 0 := h3
    have hd : data = [] := List.length_eq_zero.mp hl
    simp [hd]

theorem player_label_append_ne (p s : String) (hs : s ≠ "") :
    player_label p ++ s ≠ "" :=
  append_ne_empty_right _ _ hs

theorem check_next_word_reason_ne (lx : Lexicon) (lnw lvp fp : String)
    (hist : List String) (used : Finset String) (dr : String) (hdr : dr ≠ "") :
    (check_next_word lx lnw lvp fp hist used dr).2 ≠ "" := by
  simp only [check_next_word]
  split_ifs <;> simp [hdr]
  exact player_label_append_ne lvp "无法证明可以继续接龙" (by decide)

theorem validate_idiom_same_char_msg (lx : Lexicon) (w p : String)
    (u : Finset String) (h : (validate_idiom lx w p u "same_char").1 = false) :
    (validate_idiom lx w p u "same_char").2 = "成语不在词库中" ∨
      (validate_idiom lx w p u "same_char").2 = "首字不匹配" ∨
      (validate_idiom lx w p u "same_char").2 = "成语已使用过" := by
  simp only [validate_idiom, validate_chain] at *
  split_ifs at * <;> simp_all

theorem battle_step_cont_eq (lx : Lexicon) (src : LLMCall) (ma mb : ModelConfig)
    (start : String) (st st2 : BattleState)
    (h : battle_step lx src ma mb start st = .cont st2) :
    ∃ word next_word,
      src (battle_config ma mb st.current_player) st.history_words
          st.current_player start = .claim word next_word true ∧
      (validate_idiom lx word (st.history_words.getLastD start)
          st.used_words "same_char").1 = true ∧
      st2 = { history_words := st.history_words ++ [word]
              used_words := insert word st.used_words
              current_player := opponent st.current_player
              last_next_word := next_word
              last_valid_player := st.current_player } := by
  simp only [battle_step] at h
  cases hsrc : src (battle_config ma mb st.current_player) st.history_words
      st.current_player start with
  | err => rw [hsrc] at h; cases h
  | claim w nw s =>
    rw [hsrc] at h
    cases s with
    | false => simp at h
    | true =>
      simp only [reduceCtorEq, if_neg, reduceIte] at h
      split_ifs at h with hv
      refine ⟨w, nw, rfl, ?_, (StepResult.cont.inj h).symm⟩
      cases hb : (validate_idiom lx w (st.history_words.getLastD start)
          st.used_words "same_char").1 with
      | false => exact absurd hb hv
      | true => rfl

theorem mapped_reason_ne (lx : Lexicon) (cw ph : String) (u : Finset String)
    (p : String) (hv : (validate_idiom lx cw ph u "same_char").1 = false) :
    (if (validate_idiom lx cw ph u "same_char").2 = "成语不在词库中" then
        player_label p ++ "成语不在词库中"
      else if (validate_idiom lx cw ph u "same_char").2 = "首字不匹配" then
        player_label p ++ "首字不匹配"
      else if (validate_idiom lx cw ph u "same_char").2 = "成语已使用过" then
        player_label p ++ "成语重复使用"
      else "") ≠ "" := by
  rcases validate_idiom_same_char_msg lx cw ph u hv with hm | hm | hm <;>
    simp only [hm, String.reduceEq, reduceIte] <;>
    exact player_label_append_ne _ _ (by decide)

theorem battle_step_halt_reason (lx : Lexicon) (src : LLMCall) (ma mb : ModelConfig)
    (start : String) (st : BattleState) (w r : String)
    (h : battle_step lx src ma mb start st = .halt w r) : r ≠ "" := by
  simp only [battle_step] at h
  cases hsrc : src (battle_config ma mb st.current_player) st.history_words
      st.current_player start with
  | err =>
    rw [hsrc] at h
    injection h with h1 h2
    subst h2
    exact check_next_word_reason_ne _ _ _ _ _ _ _
      (player_label_append_ne _ _ (by decide))
  | claim cw nw s =>
    rw [hsrc] at h
    cases s with
    | false =>
      simp only [reduceIte] at h
      injection h with h1 h2
      subst h2
      exact check_next_word_reason_ne _ _ _ _ _ _ _
        (player_label_append_ne _ _ (by decide))
    | true =>
      simp only [reduceCtorEq, reduceIte] at h
      cases hvb : (validate_idiom lx cw (st.history_words.getLastD start)
          st.used_words "same_char").1 with
      | true =>
        rw [hvb] at h
        simp only [reduceCtorEq, reduceIte] at h
      | false =>
        rw [hvb] at h
        simp only [reduceIte] at h
        injection h with h1 h2
        subst h2
        exact check_next_word_reason_ne _ _ _ _ _ _ _
          (mapped_reason_ne lx cw (st.history_words.getLastD start)
            st.used_words st.current_player hvb)

theorem battle_run_reason_ne (lx : Lexicon) (src : LLMCall) (ma mb : ModelConfig)
    (start : String) :
    ∀ (fuel round : Nat) (st : BattleState),
    (battle_run lx src ma mb start fuel round st).reason ≠ "" := by
  intro fuel
  induction fuel with
  | zero => intro round st; simp [battle_run]
  | succ n ih =>
    intro round st
    cases hstep : battle_step lx src ma mb start st with
    | halt w r =>
      simpa [battle_run, hstep] using battle_step_halt_reason _ _ _ _ _ _ _ _ hstep
    | cont st2 =>
      simpa [battle_run, hstep] using ih (round + 1) st2

/-- C8: every battle result carries a non-empty reason, whatever the move
source does. -/
theorem execute_battle_reason_nonempty :
    ∀ (lx : Lexicon) (src : LLMCall) (ma mb : ModelConfig) (start : String),
    (execute_battle lx src ma mb start).reason ≠ "" := by
  intro lx src ma mb start
  simpa [execute_battle] using battle_run_reason_ne lx src ma mb start MAX_ROUNDS 1
    (initState start)

theorem battle_run_rounds_le (lx : Lexicon) (src : LLMCall) (ma mb : ModelConfig)
    (start : String) :
    ∀ (fuel round : Nat) (st : BattleState),
    (battle_run lx src ma mb start fuel round st).rounds ≤ round + fuel - 1 := by
  intro fuel
  induction fuel with
  | zero => intro round st; simp [battle_run]
  | succ n ih =>
    intro round st
    cases hstep : battle_step lx src ma mb start st with
    | halt w r => simp only [battle_run, hstep]; omega
    | cont st2 =>
      have := ih (round + 1) st2
      simp only [battle_run, hstep]
      omega

theorem battle_run_hist (lx : Lexicon) (src : LLMCall) (ma mb : ModelConfig)
    (start : String) :
    ∀ (fuel round : Nat) (st : BattleState),
    (battle_run lx src ma mb start fuel round st).history.length ≤
        st.history_words.length + fuel ∧
      ((battle_run lx src ma mb start fuel round st).history.length =
          st.history_words.length + fuel →
        (battle_run lx src ma mb start fuel round st).winner = "draw" ∧
        (battle_run lx src ma mb start fuel round st).reason = "达到最大回合数") := by
  intro fuel
  induction fuel with
  | zero => intro round st; simp [battle_run]
  | succ n ih =>
    intro round st
    cases hstep : battle_step lx src ma mb start st with
    | halt w r =>
      simp only [battle_run, hstep]
      constructor
      · omega
      · intro hlen; omega
    | cont st2 =>
      obtain ⟨word, nw, hsrc, hval, hst2⟩ :=
        battle_step_cont_eq lx src ma mb start st st2 hstep
      have hlen2 : st2.history_words.length = st.history_words.length + 1 := by
        rw [hst2]; simp
      have := ih (round + 1) st2
      simp only [battle_run, hstep]
      constructor
      · omega
      · intro hlen
        exact this.2 (by omega)

/-- C2: a match never reports more than 30 rounds, and a run in which all 30
rounds were accepted (the reported history, start word included, has 31
entries) ends as a draw with the round-limit reason. -/
theorem execute_battle_round_limit :
    ∀ (lx : Lexicon) (src : LLMCall) (ma mb : ModelConfig) (start : String),
    (execute_battle lx src ma mb start).rounds ≤ 30 ∧
      ((execute_battle lx src ma mb start).history.length = 31 →
        (execute_battle lx src ma mb start).winner = "draw" ∧
        (execute_battle lx src ma mb start).reason = "达到最大回合数") := by
  intro lx src ma mb start
  have h1 := battle_run_rounds_le lx src ma mb start 30 1 (initState start)
  have h2 := battle_run_hist lx src ma mb start 30 1 (initState start)
  constructor
  · simp only [execute_battle, MAX_ROUNDS]
    omega
  · intro hlen
    simp only [execute_battle, MAX_ROUNDS, List.length_cons] at hlen
    have h0 : (initState start).history_words.length = 0 := rfl
    have hl : (battle_run lx src ma mb start 30 1 (initState start)).history.length =
        (initState start).history_words.length + 30 := by
      omega
    have h3 := h2.2 hl
    simp only [execute_battle, MAX_ROUNDS]
    exact h3

theorem execute_battle_round_limit_witness :
    (execute_battle lxDraw drawSrc cfgA cfgB "aa").winner = "draw" ∧
      (execute_battle lxDraw drawSrc cfgA cfgB "aa").reason = "达到最大回合数" :=
  (execute_battle_round_limit lxDraw drawSrc cfgA cfgB "aa").2 (by decide)

theorem opponent_cases (p : String) : opponent p = "A" ∨ opponent p = "B" := by
  simp only [opponent]
  split_ifs <;> simp

theorem opponent_opponent (p : String) (hp : p = "A" ∨ p = "B") :
    opponent (opponent p) = p := by
  rcases hp with h | h <;> simp [h, opponent]

theorem battle_trace_inv (lx : Lexicon) (src : LLMCall) (ma mb : ModelConfig)
    (start : String) :
    ∀ (fuel : Nat) (st : BattleState),
    st.used_words = insert start st.history_words.toFinset →
    st.history_words.Nodup →
    (st.current_player = "A" ∨ st.current_player = "B") →
    (st.last_valid_player ≠ "" → st.last_valid_player = opponent st.current_player) →
    ∀ st2 ∈ battle_trace lx src ma mb start fuel st,
      (st2.used_words = insert start st2.history_words.toFinset ∧
        st2.history_words.Nodup) ∧
      (st2.current_player = "A" ∨ st2.current_player = "B") ∧
      (st2.last_valid_player ≠ "" →
        st2.last_valid_player = opponent st2.current_player) := by
  intro fuel
  induction fuel with
  | zero =>
    intro st h1 h2 h3 h4 st2 hmem
    simp only [battle_trace, List.mem_singleton] at hmem
    subst hmem
    exact ⟨⟨h1, h2⟩, h3, h4⟩
  | succ n ih =>
    intro st h1 h2 h3 h4 st2 hmem
    simp only [battle_trace, List.mem_cons] at hmem
    rcases hmem with rfl | hmem
    · exact ⟨⟨h1, h2⟩, h3, h4⟩
    · cases hstep : battle_step lx src ma mb start st with
      | halt w r => rw [hstep] at hmem; simp at hmem
      | cont stn =>
        rw [hstep] at hmem
        obtain ⟨word, nw, hsrc, hval, hstn⟩ :=
          battle_step_cont_eq lx src ma mb start st stn hstep
        have hnotused : word ∉ st.used_words :=
          validate_idiom_true_not_used lx word _ "same_char" st.used_words hval
        have hnothist : word ∉ st.history_words := by
          intro hmem2
          exact hnotused (h1 ▸ Finset.mem_insert_of_mem (List.mem_toFinset.mpr hmem2))
        refine ih stn ?_ ?_ ?_ ?_ st2 hmem
        · rw [hstn]
          ext x
          simp [h1, List.toFinset_append]
          tauto
        · rw [hstn]
          simp [List.nodup_append, h2, hnothist]
        · rw [hstn]
          exact opponent_cases st.current_player
        · rw [hstn]
          intro _
          simp only
          exact (opponent_opponent st.current_player h3).symm

/-- C5: at initialization and after every accepted turn, the used-word set
is exactly the start word together with the accepted history, and the
accepted history has no duplicates. -/
theorem execute_battle_used_words_inv :
    ∀ (lx : Lexicon) (src : LLMCall) (ma mb : ModelConfig) (start : String)
      (st : BattleState), st ∈ execute_battle_trace lx src ma mb start →
    st.used_words = insert start st.history_words.toFinset ∧
      st.history_words.Nodup := by
  intro lx src ma mb start st hmem
  have h := battle_trace_inv lx src ma mb start MAX_ROUNDS (initState start)
    (by simp [initState]) (by simp [initState]) (by simp [initState])
    (by simp [initState]) st hmem
  exact h.1

theorem execute_battle_used_words_inv_witness :
    (initState "aa").used_words =
        insert "aa" (initState "aa").history_words.toFinset ∧
      (initState "aa").history_words.Nodup :=
  execute_battle_used_words_inv lxDraw drawSrc cfgA cfgB "aa" (initState "aa")
    (by
      show _ ∈ battle_trace lxDraw drawSrc cfgA cfgB "aa" MAX_ROUNDS (initState "aa")
      rw [show MAX_ROUNDS = 29 + 1 from rfl, battle_trace]
      exact List.mem_cons_self _ _)

/-- C1: when a player fails a turn (move-source exception, resignation, or
validation failure), the ruling comes from check_next_word with that
player's original failure reason: with no recorded witness or no previous
accepting player the opponent wins with the original reason; a witness that
validates as a continuation of the last accepted phrase against the current
used set lets the last accepting player (the failing player's opponent, by
the alternation invariant) win with the original reason; an invalid witness
reverses the ruling to the failing player with the could-not-prove reason. -/
theorem check_next_word_reversal :
    (∀ (lx : Lexicon) (lnw lvp fp : String) (hist : List String)
        (used : Finset String) (dr : String),
      ((lnw = "" ∨ lvp = "") →
        check_next_word lx lnw lvp fp hist used dr = (opponent fp, dr)) ∧
      (lnw ≠ "" → lvp ≠ "" →
        (validate_idiom lx lnw (hist.getLastD "") used "same_char").1 = true →
        check_next_word lx lnw lvp fp hist used dr = (lvp, dr)) ∧
      (lnw ≠ "" → lvp ≠ "" →
        (validate_idiom lx lnw (hist.getLastD "") used "same_char").1 = false →
        check_next_word lx lnw lvp fp hist used dr =
          (fp, player_label lvp ++ "无法证明可以继续接龙"))) ∧
    (∀ (lx : Lexicon) (src : LLMCall) (ma mb : ModelConfig) (start : String)
        (st : BattleState),
      (src (battle_config ma mb st.current_player) st.history_words
          st.current_player start = .err →
        battle_step lx src ma mb start st =
          .halt (check_next_word lx st.last_next_word st.last_valid_player
              st.current_player st.history_words st.used_words
              (player_label st.current_player ++ "调用失败")).1
            (check_next_word lx st.last_next_word st.last_valid_player
              st.current_player st.history_words st.used_words
              (player_label st.current_player ++ "调用失败")).2) ∧
      (∀ w nw, src (battle_config ma mb st.current_player) st.history_words
          st.current_player start = .claim w nw false →
        battle_step lx src ma mb start st =
          .halt (check_next_word lx st.last_next_word st.last_valid_player
              st.current_player st.history_words st.used_words
              (player_label st.current_player ++ "认输")).1
            (check_next_word lx st.last_next_word st.last_valid_player
              st.current_player st.history_words st.used_words
              (player_label st.current_player ++ "认输")).2) ∧
      (∀ w nw, src (battle_config ma mb st.current_player) st.history_words
          st.current_player start = .claim w nw true →
        (validate_idiom lx w (st.history_words.getLastD start)
            st.used_words "same_char").1 = false →
        battle_step lx src ma mb start st =
          .halt (check_next_word lx st.last_next_word st.last_valid_player
              st.current_player st.history_words st.used_words
              (if (validate_idiom lx w (st.history_words.getLastD start)
                    st.used_words "same_char").2 = "成语不在词库中" then
                  player_label st.current_player ++ "成语不在词库中"
                else if (validate_idiom lx w (st.history_words.getLastD start)
                    st.used_words "same_char").2 = "首字不匹配" then
                  player_label st.current_player ++ "首字不匹配"
                else if (validate_idiom lx w (st.history_words.getLastD start)
                    st.used_words "same_char").2 = "成语已使用过" then
                  player_label st.current_player ++ "成语重复使用"
                else "")).1
            (check_next_word lx st.last_next_word st.last_valid_player
              st.current_player st.history_words st.used_words
              (if (validate_idiom lx w (st.history_words.getLastD start)
                    st.used_words "same_char").2 = "成语不在词库中" then
                  player_label st.current_player ++ "成语不在词库中"
                else if (validate_idiom lx w (st.history_words.getLastD start)
                    st.used_words "same_char").2 = "首字不匹配" then
                  player_label st.current_player ++ "首字不匹配"
                else if (validate_idiom lx w (st.history_words.getLastD start)
                    st.used_words "same_char").2 = "成语已使用过" then
                  player_label st.current_player ++ "成语重复使用"
                else "")).2)) ∧
    (∀ (lx : Lexicon) (src : LLMCall) (ma mb : ModelConfig) (start : String)
        (st : BattleState), st ∈ execute_battle_trace lx src ma mb start →
      st.last_valid_player ≠ "" →
      st.last_valid_player = opponent st.current_player) := by
  refine ⟨?_, ?_, ?_⟩
  · intro lx lnw lvp fp hist used dr
    refine ⟨?_, ?_, ?_⟩
    · intro h
      simp only [check_next_word]
      rw [if_pos h]
    · intro h1 h2 h3
      simp only [check_next_word]
      rw [if_neg (by tauto), if_pos h3]
    · intro h1 h2 h3
      simp only [check_next_word]
      rw [if_neg (by tauto), if_neg (by rw [h3]; decide)]
  · intro lx src ma mb start st
    refine ⟨?_, ?_, ?_⟩
    · intro hsrc
      simp only [battle_step, hsrc]
    · intro w nw hsrc
      simp only [battle_step, hsrc, reduceIte]
    · intro w nw hsrc hval
      simp only [battle_step, hsrc, hval, reduceCtorEq, reduceIte]
  · intro lx src ma mb start st hmem h
    exact (battle_trace_inv lx src ma mb start MAX_ROUNDS (initState start)
      (by simp [initState]) (by simp [initState]) (by simp [initState])
      (by simp [initState]) st hmem).2.2 h

/-- C6: with first_player "A" the raw winner is recorded unchanged; with
first_player "B" the configurations are swapped and the raw label inverted
(A and B exchanged, draw kept), so a physical player who wins both raw
matches is reported as the same canonical player in both entries. -/
theorem benchmark_role_normalization :
    ∀ (lx : Lexicon) (src : LLMCall) (ma mb : ModelConfig) (s : String),
    ((run_single_benchmark_battle lx src ma mb s "A").winner =
        (execute_battle lx src ma mb s).winner ∧
      (run_single_benchmark_battle lx src ma mb s "A").first_player = "A") ∧
    ((run_single_benchmark_battle lx src ma mb s "B").winner =
        (if (execute_battle lx src mb ma s).winner = "A" then "B"
          else if (execute_battle lx src mb ma s).winner = "B" then "A"
          else "draw") ∧
      (run_single_benchmark_battle lx src ma mb s "B").first_player = "B") ∧
    ((execute_battle lx src ma mb s).winner = "A" →
      (execute_battle lx src mb ma s).winner = "B" →
      (run_single_benchmark_battle lx src ma mb s "A").winner = "A" ∧
        (run_single_benchmark_battle lx src ma mb s "B").winner = "A") := by
  intro lx src ma mb s
  refine ⟨⟨?_, ?_⟩, ⟨?_, ?_⟩, ?_⟩
  · simp [run_single_benchmark_battle]
  · simp [run_single_benchmark_battle]
  · simp [run_single_benchmark_battle]
  · simp [run_single_benchmark_battle]
  · intro ha hb
    constructor
    · simp [run_single_benchmark_battle, ha]
    · simp [run_single_benchmark_battle, hb]

theorem try_parse_eq_none (loads : String → Option PyJson) (s : String)
    (h : ∀ fs, loads s ≠ some (.obj fs)) : try_parse loads s = none := by
  unfold try_parse
  cases hl : loads s with
  | none => rfl
  | some j => cases j <;> first | exact absurd hl (h _) | rfl

/-- C10: when neither the stripped text nor its first brace-delimited block
decodes to a JSON object (for instance when the text decodes to a list,
string or number), parse_llm_response reports failure with the empty
normalized dict and compute_step_reward scores the move as a parse failure:
compliance -1 on top of the round penalty. -/
theorem parse_non_object_rejected :
    ∀ (lx : Lexicon) (loads : String → Option PyJson) (text prev : String)
      (used : Finset String) (round : Nat) (mode : String) (rp fp : ℚ),
    (∀ fs, loads (pyStrip text) ≠ some (.obj fs)) →
    (∀ sub fs, first_brace_block (pyStrip text) = some sub →
      loads sub ≠ some (.obj fs)) →
    parse_llm_response loads text = (false, ⟨"", "", false⟩) ∧
      (compute_step_reward lx loads text prev used round mode rp fp).2.compliance = -1 ∧
      (compute_step_reward lx loads text prev used round mode rp fp).2.reason =
        "JSON解析失败" ∧
      (compute_step_reward lx loads text prev used round mode rp fp).1 = rp + (-1) := by
  intro lx loads text prev used round mode rp fp h1 h2
  have ht1 : try_parse loads (pyStrip text) = none := try_parse_eq_none loads _ h1
  have hp : parse_llm_response loads text = (false, ⟨"", "", false⟩) := by
    simp only [parse_llm_response, ht1]
    cases hb : first_brace_block (pyStrip text) with
    | none => simp
    | some sub =>
      have ht2 : try_parse loads sub = none :=
        try_parse_eq_none loads _ (fun fs => h2 sub fs hb)
      simp [ht2]
  refine ⟨hp, ?_, ?_, ?_⟩ <;>
    simp [compute_step_reward, hp]

theorem parse_non_object_rejected_witness :
    parse_llm_response arrLoads "[1]" = (false, ⟨"", "", false⟩) ∧
      (compute_step_reward lxDraw arrLoads "[1]" "aa" ∅ 1 "same_char"
          (-0.1) (-1)).2.compliance = -1 ∧
      (compute_step_reward lxDraw arrLoads "[1]" "aa" ∅ 1 "same_char"
          (-0.1) (-1)).2.reason = "JSON解析失败" ∧
      (compute_step_reward lxDraw arrLoads "[1]" "aa" ∅ 1 "same_char"
          (-0.1) (-1)).1 = -0.1 + (-1) :=
  parse_non_object_rejected lxDraw arrLoads "[1]" "aa" ∅ 1 "same_char" (-0.1) (-1)
    (fun fs h => PyJson.noConfusion (Option.some.inj h))
    (fun sub fs h => by
      rw [(by decide : first_brace_block (pyStrip "[1]") = none)] at h
      cases h)

theorem union_singleton_eq_insert (s : Finset String) (a : String) :
    s ∪ {a} = insert a s := by
  ext x
  simp [or_comm]

/-- C3: the step reward always equals the round penalty plus the one
compliance term of the first applicable branch — parse failure -1, declared
failure fail_penalty, not in lexicon -0.8, chain mismatch -0.8, already used
-0.6, valid move +0.3 — and only the valid branch adds the strategy tier for
the continuation count (against the used set with the new word) and the +0.3
foresight bonus for a non-empty next_word that validates as a legal unused
continuation. -/
theorem compute_step_reward_decomposition :
    ∀ (lx : Lexicon) (loads : String → Option PyJson) (text prev : String)
      (used : Finset String) (round : Nat) (mode : String) (rp fp : ℚ),
    ((compute_step_reward lx loads text prev used round mode rp fp).1 =
        rp + (compute_step_reward lx loads text prev used round mode rp fp).2.compliance +
          (compute_step_reward lx loads text prev used round mode rp fp).2.strategy +
          (compute_step_reward lx loads text prev used round mode rp fp).2.foresight ∧
      (compute_step_reward lx loads text prev used round mode rp fp).1 =
        (compute_step_reward lx loads text prev used round mode rp fp).2.total ∧
      (compute_step_reward lx loads text prev used round mode rp fp).2.round_penalty = rp) ∧
    ((parse_llm_response loads text).1 = false →
      (compute_step_reward lx loads text prev used round mode rp fp).2.compliance = -1 ∧
      (compute_step_reward lx loads text prev used round mode rp fp).2.strategy = 0 ∧
      (compute_step_reward lx loads text prev used round mode rp fp).2.foresight = 0 ∧
      (compute_step_reward lx loads text prev used round mode rp fp).2.valid = false) ∧
    ((parse_llm_response loads text).1 = true →
      (parse_llm_response loads text).2.success = false →
      (compute_step_reward lx loads text prev used round mode rp fp).2.compliance = fp ∧
      (compute_step_reward lx loads text prev used round mode rp fp).2.strategy = 0 ∧
      (compute_step_reward lx loads text prev used round mode rp fp).2.foresight = 0 ∧
      (compute_step_reward lx loads text prev used round mode rp fp).2.valid = false) ∧
    ((parse_llm_response loads text).1 = true →
      (parse_llm_response loads text).2.success = true →
      (parse_llm_response loads text).2.word ∉ chengyu_set lx →
      (compute_step_reward lx loads text prev used round mode rp fp).2.compliance = -0.8 ∧
      (compute_step_reward lx loads text prev used round mode rp fp).2.strategy = 0 ∧
      (compute_step_reward lx loads text prev used round mode rp fp).2.foresight = 0 ∧
      (compute_step_reward lx loads text prev used round mode rp fp).2.valid = false) ∧
    ((parse_llm_response loads text).1 = true →
      (parse_llm_response loads text).2.success = true →
      (parse_llm_response loads text).2.word ∈ chengyu_set lx →
      (validate_chain lx (parse_llm_response loads text).2.word prev mode).1 = false →
      (compute_step_reward lx loads text prev used round mode rp fp).2.compliance = -0.8 ∧
      (compute_step_reward lx loads text prev used round mode rp fp).2.strategy = 0 ∧
      (compute_step_reward lx loads text prev used round mode rp fp).2.foresight = 0 ∧
      (compute_step_reward lx loads text prev used round mode rp fp).2.valid = false) ∧
    ((parse_llm_response loads text).1 = true →
      (parse_llm_response loads text).2.success = true →
      (parse_llm_response loads text).2.word ∈ chengyu_set lx →
      (validate_chain lx (parse_llm_response loads text).2.word prev mode).1 = true →
      (parse_llm_response loads text).2.word ∈ used →
      (compute_step_reward lx loads text prev used round mode rp fp).2.compliance = -0.6 ∧
      (compute_step_reward lx loads text prev used round mode rp fp).2.strategy = 0 ∧
      (compute_step_reward lx loads text prev used round mode rp fp).2.foresight = 0 ∧
      (compute_step_reward lx loads text prev used round mode rp fp).2.valid = false) ∧
    ((parse_llm_response loads text).1 = true →
      (parse_llm_response loads text).2.success = true →
      (parse_llm_response loads text).2.word ∈ chengyu_set lx →
      (validate_chain lx (parse_llm_response loads text).2.word prev mode).1 = true →
      (parse_llm_response loads text).2.word ∉ used →
      (compute_step_reward lx loads text prev used round mode rp fp).2.compliance = 0.3 ∧
      (compute_step_reward lx loads text prev used round mode rp fp).2.valid = true ∧
      (compute_step_reward lx loads text prev used round mode rp fp).2.strategy =
        (if count_continuations lx (parse_llm_response loads text).2.word
            (insert (parse_llm_response loads text).2.word used) mode = 0 then 0.5
          else if count_continuations lx (parse_llm_response loads text).2.word
            (insert (parse_llm_response loads text).2.word used) mode ≤ 5 then 0.3
          else if count_continuations lx (parse_llm_response loads text).2.word
            (insert (parse_llm_response loads text).2.word used) mode ≤ 20 then 0.1
          else 0) ∧
      (compute_step_reward lx loads text prev used round mode rp fp).2.foresight =
        (if (parse_llm_response loads text).2.next_word ≠ "" ∧
            (validate_idiom lx (parse_llm_response loads text).2.next_word
              (parse_llm_response loads text).2.word
              (insert (parse_llm_response loads text).2.word used) mode).1 = true
          then 0.3 else 0)) := by
  intro lx loads text prev used round mode rp fp
  rcases hpr : parse_llm_response loads text with ⟨ok, parsed⟩
  cases ok with
  | false =>
    refine ⟨?_, ?_, ?_, ?_, ?_, ?_, ?_⟩ <;>
      simp [compute_step_reward, hpr]
  | true =>
    cases hs : parsed.success with
    | false =>
      refine ⟨?_, ?_, ?_, ?_, ?_, ?_, ?_⟩ <;>
        simp [compute_step_reward, hpr, hs]
    | true =>
      by_cases hex : parsed.word ∈ chengyu_set lx
      · have hexb : validate_existence lx parsed.word = true := by
          simp [validate_existence, hex]
        by_cases hch : (validate_chain lx parsed.word prev mode).1 = true
        · by_cases hu : parsed.word ∈ used
          · have hub : validate_uniqueness parsed.word used = false := by
              simp [validate_uniqueness, hu]
            refine ⟨?_, ?_, ?_, ?_, ?_, ?_, ?_⟩ <;>
              simp [compute_step_reward, hpr, hs, hexb, hch, hub, hex, hu]
          · have hub : validate_uniqueness parsed.word used = true := by
              simp [validate_uniqueness, hu]
            refine ⟨?_, ?_, ?_, ?_, ?_, ?_, ?_⟩ <;>
              simp [compute_step_reward, hpr, hs, hexb, hch, hub, hex, hu,
                union_singleton_eq_insert]
        · have hchf : (validate_chain lx parsed.word prev mode).1 = false := by
            simpa using hch
          refine ⟨?_, ?_, ?_, ?_, ?_, ?_, ?_⟩ <;>
            simp [compute_step_reward, hpr, hs, hexb, hchf, hex]
      · have hexb : validate_existence lx parsed.word = false := by
          simp [validate_existence, hex]
        refine ⟨?_, ?_, ?_, ?_, ?_, ?_, ?_⟩ <;>
          simp [compute_step_reward, hpr, hs, hexb, hex]

/-- A JSON decoder that decodes every text as a well-formed move object. -/
def objLoads : String → Option PyJson := fun _ =>
  some (.obj [("word", .str "ab"), ("next_word", .str "bc"),
    ("success", .bool true)])

theorem compute_step_reward_decomposition_witness :
    (compute_step_reward lxDraw objLoads "x" "aa" {"aa"} 1 "same_char"
        (-0.1) (-1)).2.compliance = 0.3 ∧
      (compute_step_reward lxDraw objLoads "x" "aa" {"aa"} 1 "same_char"
        (-0.1) (-1)).2.valid = true ∧
      (compute_step_reward lxDraw objLoads "x" "aa" {"aa"} 1 "same_char"
        (-0.1) (-1)).2.strategy =
        (if count_continuations lxDraw (parse_llm_response objLoads "x").2.word
            (insert (parse_llm_response objLoads "x").2.word {"aa"}) "same_char" = 0
          then 0.5
          else if count_continuations lxDraw (parse_llm_response objLoads "x").2.word
            (insert (parse_llm_response objLoads "x").2.word {"aa"}) "same_char" ≤ 5
          then 0.3
          else if count_continuations lxDraw (parse_llm_response objLoads "x").2.word
            (insert (parse_llm_response objLoads "x").2.word {"aa"}) "same_char" ≤ 20
          then 0.1
          else 0) ∧
      (compute_step_reward lxDraw objLoads "x" "aa" {"aa"} 1 "same_char"
        (-0.1) (-1)).2.foresight =
        (if (parse_llm_response objLoads "x").2.next_word ≠ "" ∧
            (validate_idiom lxDraw (parse_llm_response objLoads "x").2.next_word
              (parse_llm_response objLoads "x").2.word
              (insert (parse_llm_response objLoads "x").2.word {"aa"})
              "same_char").1 = true
          then 0.3 else 0) :=
  (compute_step_reward_decomposition lxDraw objLoads "x" "aa" {"aa"} 1 "same_char"
      (-0.1) (-1)).2.2.2.2.2.2 (by decide) (by decide) (by decide) (by decide)
    (by decide)

theorem validate_idiom_priority_witness :
    validate_idiom lxDraw "ab" "aa" {"aa", "ab"} "same_char" = (false, "成语已使用过") :=
  ((validate_idiom_priority lxDraw "ab" "aa" {"aa", "ab"} "same_char").2.2.1
    (by decide) (by decide)).2 (by decide)

theorem check_next_word_reversal_witness :
    check_next_word lxDraw "xx" "A" "B" ["ab"] {"aa", "ab"} "模型B认输" =
      ("B", player_label "A" ++ "无法证明可以继续接龙") :=
  (check_next_word_reversal.1 lxDraw "xx" "A" "B" ["ab"] {"aa", "ab"} "模型B认输").2.2
    (by decide) (by decide) (by decide)

/-- A move source biased by configuration: the model named "ma" always plays
the next chain word with a witness, any other configuration fails the call. -/
def biasedSrc : LLMCall := fun cfg hist _ _ =>
  if cfg.model = "ma" then
    .claim (chainWord hist.length) (chainWord (hist.length + 1)) true
  else .err

theorem benchmark_role_normalization_witness :
    (run_single_benchmark_battle lxDraw biasedSrc cfgA cfgB "aa" "A").winner = "A" ∧
      (run_single_benchmark_battle lxDraw biasedSrc cfgA cfgB "aa" "B").winner = "A" :=
  (benchmark_role_normalization lxDraw biasedSrc cfgA cfgB "aa").2.2
    (by decide) (by decide)
